import Mathlib

/-!
Verification development for `src/predictor.py` of the qc-based-normalization
repository.  The script loads two QC-metric tables, extracts a fixed set of
"signal feature" columns, imputes the sentinel value -1 column-wise with the
column median, runs a grid search per (feature, candidate) pair, and writes a
transposed results table to a CSV file.

Numeric values are modelled as rationals (`ℚ`); Python exceptions as an
explicit error kind carried in `Except`.
-/

namespace QCPredictor

/-- Kinds of Python exceptions the script can raise, kept distinguishable so
that claims naming a specific exception class can be settled. -/
inductive PyError where
  | valueError
  | connectionError
  | lookupError
  | indexError
deriving DecidableEq

/-- Insert a rational into an ascending-sorted list, keeping it sorted. -/
def insertLe (x : ℚ) : List ℚ → List ℚ
  | [] => [x]
  | y :: ys => if x ≤ y then x :: y :: ys else y :: insertLe x ys

/-- Ascending insertion sort on rationals (extensionally the sort used by
`numpy.median`). -/
def sortQ : List ℚ → List ℚ
  | [] => []
  | x :: xs => insertLe x (sortQ xs)

/-- Median as computed by `numpy.median`: sort ascending; for odd length take
the middle element, for even length average the two middle elements.
(`numpy.median` of an empty array is NaN; the empty case is given the junk
value 0 and never relied upon.) -/
def median (l : List ℚ) : ℚ :=
  let s := sortQ l
  let n := l.length
  if n % 2 = 1 then s.getD (n / 2) 0
  else (s.getD (n / 2 - 1) 0 + s.getD (n / 2) 0) / 2

/-- One iteration of the imputation loop body
`signal_features[numpy.where(signal_features[:, i] == -1), i] = numpy.median(signal_features[:, i])`
(predictor.py:166-167, 222-223): every entry of the column equal to the
sentinel -1 is overwritten with the column's median, computed from the column
as it stands, i.e. with the sentinel entries still present. -/
def imputeStep (c : List ℚ) : List ℚ :=
  c.map (fun x => if x = -1 then median c else x)

/-- The sequential in-place `for i in range(signal_features.shape[1])` loop of
predictor.py:166-167, on a matrix represented as its list of columns: at step
`i` column `i` of the current state is replaced by `imputeStep` of itself.
`fuel` counts the remaining iterations. -/
def imputeLoop : List (List ℚ) → Nat → Nat → List (List ℚ)
  | cols, _, 0 => cols
  | cols, i, fuel + 1 =>
      imputeLoop (cols.set i (imputeStep (cols.getD i []))) (i + 1) fuel

/-- The whole imputation pass of predictor.py:166-167 (also 222-223): run the
loop body once for each column index. -/
def impute (cols : List (List ℚ)) : List (List ℚ) :=
  imputeLoop cols 0 cols.length

theorem getD_append_length {α : Type} (A : List α) (c : α) (B : List α) (d : α) :
    (A ++ c :: B).getD A.length d = c := by
  induction A with
  | nil => rfl
  | cons a as ih =>
      simp only [List.cons_append, List.length_cons, List.getD_cons_succ]
      exact ih

theorem set_append_length {α : Type} (A : List α) (c x : α) (B : List α) :
    (A ++ c :: B).set A.length x = A ++ x :: B := by
  induction A with
  | nil => rfl
  | cons a as ih =>
      simp only [List.cons_append, List.length_cons, List.set_cons_succ]
      rw [ih]

theorem imputeLoop_append (B : List (List ℚ)) :
    ∀ A : List (List ℚ),
      imputeLoop (A ++ B) A.length B.length = A ++ B.map imputeStep := by
  induction B with
  | nil => intro A; simp [imputeLoop]
  | cons c B' ih =>
      intro A
      have hget : (A ++ c :: B').getD A.length [] = c := getD_append_length A c B' []
      have hset :
          (A ++ c :: B').set A.length (imputeStep c) = A ++ imputeStep c :: B' :=
        set_append_length A c (imputeStep c) B'
      have hlen : A.length + 1 = (A ++ [imputeStep c]).length := by
        simp
      have hassoc : A ++ imputeStep c :: B' = (A ++ [imputeStep c]) ++ B' := by
        simp
      calc imputeLoop (A ++ c :: B') A.length (B'.length + 1)
          = imputeLoop (A ++ imputeStep c :: B') (A.length + 1) B'.length := by
            simp only [imputeLoop]
            rw [hget, hset]
        _ = imputeLoop ((A ++ [imputeStep c]) ++ B') (A ++ [imputeStep c]).length
              B'.length := by
            rw [hassoc, hlen]
        _ = (A ++ [imputeStep c]) ++ B'.map imputeStep := ih (A ++ [imputeStep c])
        _ = A ++ (c :: B').map imputeStep := by simp

/-- The sequential in-place loop acts on each column independently: it equals
the column-wise map of `imputeStep`. -/
theorem impute_eq_map (cols : List (List ℚ)) :
    impute cols = cols.map imputeStep := by
  simpa [impute] using imputeLoop_append cols []

theorem getD_map_imputeStep (l : List (List ℚ)) :
    ∀ i : Nat, (l.map imputeStep).getD i [] = imputeStep (l.getD i []) := by
  induction l with
  | nil => intro i; cases i <;> simp [imputeStep]
  | cons c t ih =>
      intro i
      cases i with
      | zero => rfl
      | succ n =>
          simp only [List.map_cons, List.getD_cons_succ]
          exact ih n

theorem mem_imputeStep_ne_sentinel {c : List ℚ} (hm : median c ≠ -1) :
    ∀ x ∈ imputeStep c, x ≠ -1 := by
  intro x hx
  rcases List.mem_map.mp hx with ⟨y, _, hy⟩
  rw [← hy]
  by_cases hy1 : y = -1
  · simp only [if_pos hy1]
    exact hm
  · simp [hy1]

theorem imputeStep_of_median_sentinel {c : List ℚ} (hm : median c = -1) :
    imputeStep c = c := by
  have h1 : ∀ x ∈ c, (if x = -1 then median c else x) = x := by
    intro x _
    by_cases hx : x = -1 <;> simp [hx, hm]
  calc imputeStep c = c.map (fun x => if x = -1 then median c else x) := rfl
    _ = c.map (fun x => x) := List.map_congr_left h1
    _ = c := by simp

theorem imputeStep_idem (c : List ℚ) :
    imputeStep (imputeStep c) = imputeStep c := by
  by_cases hm : median c = -1
  · rw [imputeStep_of_median_sentinel hm, imputeStep_of_median_sentinel hm]
  · have h1 : ∀ x ∈ imputeStep c,
        (if x = -1 then median (imputeStep c) else x) = x := by
      intro x hx
      simp [mem_imputeStep_ne_sentinel hm x hx]
    calc imputeStep (imputeStep c)
        = (imputeStep c).map
            (fun x => if x = -1 then median (imputeStep c) else x) := rfl
      _ = (imputeStep c).map (fun x => x) := List.map_congr_left h1
      _ = imputeStep c := by simp

/-- C1: the imputation pass of predictor.py:166-167 (and 222-223) rewrites, in
each column independently, exactly the entries equal to the sentinel -1 to the
median of that same column computed over all rows with the sentinel entries
still included, and leaves every entry not equal to -1 unchanged: column `i`
of the result is the pointwise conditional rewrite of column `i` of the input,
with the median taken from the input column itself. -/
theorem c1_impute_is_columnwise_sentinel_median_rewrite (cols : List (List ℚ)) :
    (impute cols).length = cols.length ∧
    ∀ i : Nat, (impute cols).getD i [] =
      (cols.getD i []).map
        (fun x => if x = -1 then median (cols.getD i []) else x) := by
  rw [impute_eq_map]
  exact ⟨List.length_map _ _, fun i => getD_map_imputeStep cols i⟩

/-- C2 counterexample: in the column `[-1, -1, 0]` the sentinel-inclusive
median is itself -1, so after one imputation pass the column still contains
the sentinel -1, refuting the claim that no entry equals -1 after imputation. -/
theorem c2_counterexample_sentinel_survives :
    (-1 : ℚ) ∈ (impute [[-1, -1, 0]]).getD 0 [] := by
  decide

/-- C2 amended: after one imputation pass, a column contains no sentinel -1
entries provided its sentinel-inclusive median is not itself -1. -/
theorem c2_no_sentinel_after_impute_of_median_ne
    (cols : List (List ℚ)) (i : Nat)
    (hm : median (cols.getD i []) ≠ -1) :
    ∀ x ∈ (impute cols).getD i [], x ≠ -1 := by
  rw [impute_eq_map, getD_map_imputeStep]
  exact mem_imputeStep_ne_sentinel hm

theorem c2_no_sentinel_after_impute_of_median_ne_witness :
    median (([[-1, 2, 3]] : List (List ℚ)).getD 0 []) ≠ -1 ∧
    ∀ x ∈ (impute [[-1, 2, 3]]).getD 0 [], x ≠ -1 :=
  ⟨by decide, c2_no_sentinel_after_impute_of_median_ne [[-1, 2, 3]] 0 (by decide)⟩

/-- C7: the imputation pass is idempotent: running the column-wise sentinel
replacement twice gives the same matrix as running it once (in each column,
either the median is -1 and the pass is the identity, or after one pass no
entry equals -1 and the second pass rewrites nothing). -/
theorem c7_impute_idempotent (cols : List (List ℚ)) :
    impute (impute cols) = impute cols := by
  rw [impute_eq_map, impute_eq_map, List.map_map]
  exact List.map_congr_left fun c _ => imputeStep_idem c

/-- Round to the nearest integer with ties to even, the behaviour of Python's
built-in `round` (modelled on exact rationals). -/
def roundHalfEven (q : ℚ) : ℤ :=
  if q - ⌊q⌋ < 1 / 2 then ⌊q⌋
  else if (1 : ℚ) / 2 < q - ⌊q⌋ then ⌊q⌋ + 1
  else if ⌊q⌋ % 2 = 0 then ⌊q⌋ else ⌊q⌋ + 1

/-- Python's `round(x, 1)`: round to one decimal place, ties to even. -/
def pyRound1 (q : ℚ) : ℚ := (roundHalfEven (q * 10) : ℚ) / 10

/-- The relative-error formula of predictor.py:196 and 246:
`round(-grid.best_score_ / numpy.median(y) * 100, 1)`, where `y` is the full
pre-split target column and `best_score` stands for `grid.best_score_`, the
best cross-validated score produced by the (external) grid search. -/
def relative_error_percent (best_score : ℚ) (y : List ℚ) : ℚ :=
  pyRound1 (-best_score / median y * 100)

/-- The value the Mode A inner loop appends for one (feature, candidate) cell
(predictor.py:196, 203): `y` is the full target column taken before
`train_test_split` (predictor.py:177-179), `trainIdx` the row indices of the
training split (in scope at that point of the code but unused by the
formula), `best_score` the grid search's best cross-validated score. -/
def modeA_cell (y : List ℚ) (trainIdx : List Nat) (best_score : ℚ) : ℚ :=
  relative_error_percent best_score y

/-- C3: the recorded relative error equals
`round(-best_cv_score / median(y) * 100, 1)` with the median taken over the
full pre-split target vector `y` — the value does not depend on the training
subset at all — and the result is an integer number of tenths, i.e. rounded
to exactly one decimal place. -/
theorem c3_relative_error_formula
    (y : List ℚ) (trainIdx trainIdx' : List Nat) (best_score : ℚ) :
    modeA_cell y trainIdx best_score = pyRound1 (-best_score / median y * 100) ∧
    modeA_cell y trainIdx best_score = modeA_cell y trainIdx' best_score ∧
    ∃ k : ℤ, modeA_cell y trainIdx best_score = (k : ℚ) / 10 :=
  ⟨rfl, rfl, ⟨roundHalfEven (-best_score / median y * 100 * 10), rfl⟩⟩

/-- The Mode B inner loop's effect for one (feature, candidate) pair
(predictor.py:246-257), as the pair (value appended to the results row,
numbers printed to the console).  The held-out R² of predictor.py:248 is
printed (line 253) but only `relative_error_percent` is appended to the
results row (line 257). -/
def modeB_step (y : List ℚ) (best_score r2 : ℚ) : ℚ × List ℚ :=
  (relative_error_percent best_score y,
   [best_score, median y, relative_error_percent best_score y, r2])

/-- C4 counterexample: the recorded Mode B cell is identical for two runs
that differ only in the held-out R² score (0 versus 1), so the R² score is
not recorded in the (feature, candidate) cell of the results table. -/
theorem c4_counterexample_r2_not_recorded :
    (modeB_step [1] 0 0).1 = (modeB_step [1] 0 1).1 ∧ (0 : ℚ) ≠ 1 :=
  ⟨rfl, by norm_num⟩

/-- C4 amended: in Mode B the cell recorded in the results table holds only
the relative error percentage and is independent of the held-out R² score;
the R² score is merely printed to the console alongside it. -/
theorem c4_r2_printed_not_recorded (y : List ℚ) (best_score r2 : ℚ) :
    (modeB_step y best_score r2).1 = relative_error_percent best_score y ∧
    (∀ r2' : ℚ, (modeB_step y best_score r2').1 = (modeB_step y best_score r2).1) ∧
    r2 ∈ (modeB_step y best_score r2).2 :=
  ⟨rfl, fun _ => rfl, by simp [modeB_step]⟩

/-- A raw table as returned by `db_connector.fetch_table`: rows of values
together with the table's column names.  Values are modelled as rationals
(the script casts them to floating point). -/
structure RawTable where
  rows : List (List ℚ)
  colnames : List String
deriving DecidableEq

/-- The open metrics store behind a successful `db_connector.create_connection`.
The database layer itself is an external collaborator; table fetching is
passed in as a function. -/
structure Store where
  tables : String → RawTable

/-- The data returned by `get_features_data` (predictor.py:33): the metadata
matrix, the feature matrix and the combined column-name sequence. -/
structure FeaturesData where
  meta : List (List ℚ)
  features : List (List ℚ)
  colnames : List String
deriving DecidableEq

/-- The successful branch of `get_features_data` (predictor.py:23-33): the
first four columns of table 1 become the metadata matrix, the remaining
columns of both tables are horizontally concatenated into the feature matrix,
and the combined column names are table 1's names followed by table 2's names
from position 4 on. -/
def featuresDataOf (t1 t2 : RawTable) : FeaturesData where
  meta := t1.rows.map (fun r => r.take 4)
  features := List.zipWith (· ++ ·)
    (t1.rows.map (fun r => r.drop 4)) (t2.rows.map (fun r => r.drop 4))
  colnames := t1.colnames ++ t2.colnames.drop 4

/-- `get_features_data` (predictor.py:15-33): `conn` is the result of
`db_connector.create_connection(path)` — `none` when the connection attempt
returns no connection.  In that case the function raises `ValueError`
(predictor.py:20-21) before fetching any table; otherwise it fetches
`qc_features_1` and `qc_features_2` and assembles the result. -/
def get_features_data (conn : Option Store) : Except PyError FeaturesData :=
  match conn with
  | none => .error .valueError
  | some c => .ok (featuresDataOf (c.tables "qc_features_1") (c.tables "qc_features_2"))

/-- C5 counterexample: when the connection attempt returns no connection the
loader fails with `ValueError` (predictor.py:21), not with `ConnectionError`
as claimed. -/
theorem c5_counterexample_valueerror_not_connectionerror :
    get_features_data none = Except.error PyError.valueError ∧
    PyError.valueError ≠ PyError.connectionError :=
  ⟨rfl, by decide⟩

/-- C5 amended: when the metrics-store connection attempt returns no
connection, `get_features_data` fails with `ValueError`, and it does so
before fetching or processing any table: the result is the same whatever the
store's tables would have contained. -/
theorem c5_fails_with_valueerror_before_fetch (conn : Option Store)
    (h : conn = none) :
    get_features_data conn = Except.error PyError.valueError ∧
    ∀ conn' : Option Store, conn' = none →
      get_features_data conn = get_features_data conn' := by
  subst h
  exact ⟨rfl, fun conn' h' => by rw [h']⟩

theorem c5_fails_with_valueerror_before_fetch_witness :
    (none : Option Store) = none ∧
    get_features_data none = Except.error PyError.valueError ∧
    ∀ conn' : Option Store, conn' = none →
      get_features_data none = get_features_data conn' :=
  ⟨rfl, (c5_fails_with_valueerror_before_fetch none rfl).1,
    (c5_fails_with_valueerror_before_fetch none rfl).2⟩

theorem length_zipWith_append_of_lengths {a b : Nat}
    (t1 : List (List ℚ)) (t2 : List (List ℚ))
    (h1 : ∀ r ∈ t1, r.length = a) (h2 : ∀ r ∈ t2, r.length = b) :
    ∀ row ∈ List.zipWith (· ++ ·) t1 t2, row.length = a + b := by
  induction t1 generalizing t2 with
  | nil => intro row hrow; simp at hrow
  | cons r1 rest1 ih =>
      intro row hrow
      cases t2 with
      | nil => simp at hrow
      | cons r2 rest2 =>
          simp only [List.zipWith_cons_cons, List.mem_cons] at hrow
          rcases hrow with h | h
          · subst h
            simp [h1 r1 (by simp), h2 r2 (by simp)]
          · exact ih rest2 (fun r hr => h1 r (by simp [hr]))
              (fun r hr => h2 r (by simp [hr])) row h

/-- C8: for two fetched tables with the same row count `n` and rectangular
row widths `c1` and `c2` (each at least the 4 metadata columns), the loader's
feature matrix has `n` rows of width `(c1 - 4) + (c2 - 4)`, and the four
leading metadata columns of table 1 are returned separately as the metadata
matrix (`n` rows of width 4). -/
theorem c8_loader_shape (t1 t2 : RawTable) (n c1 c2 : Nat)
    (h1 : t1.rows.length = n) (h2 : t2.rows.length = n)
    (hc1 : ∀ r ∈ t1.rows, r.length = c1) (hc2 : ∀ r ∈ t2.rows, r.length = c2)
    (h41 : 4 ≤ c1) (h42 : 4 ≤ c2) :
    (featuresDataOf t1 t2).features.length = n ∧
    (∀ row ∈ (featuresDataOf t1 t2).features,
      row.length = (c1 - 4) + (c2 - 4)) ∧
    (featuresDataOf t1 t2).meta = t1.rows.map (fun r => r.take 4) ∧
    (featuresDataOf t1 t2).meta.length = n ∧
    (∀ row ∈ (featuresDataOf t1 t2).meta, row.length = 4) := by
  refine ⟨?_, ?_, rfl, ?_, ?_⟩
  · simp [featuresDataOf, h1, h2]
  · have ha : ∀ r ∈ t1.rows.map (fun r => List.drop 4 r), r.length = c1 - 4 := by
      intro r hr
      rcases List.mem_map.mp hr with ⟨s, hs, rfl⟩
      simp [hc1 s hs]
    have hb : ∀ r ∈ t2.rows.map (fun r => List.drop 4 r), r.length = c2 - 4 := by
      intro r hr
      rcases List.mem_map.mp hr with ⟨s, hs, rfl⟩
      simp [hc2 s hs]
    exact length_zipWith_append_of_lengths _ _ ha hb
  · simp [featuresDataOf, h1]
  · intro row hrow
    rcases List.mem_map.mp hrow with ⟨s, hs, rfl⟩
    have := hc1 s hs
    simp [List.length_take, this]
    omega

theorem c8_loader_shape_witness :
    (featuresDataOf ⟨[[1, 2, 3, 4, 5]], ["a", "b", "c", "d", "e"]⟩
        ⟨[[9, 8, 7, 6, 0, 5]], ["a", "b", "c", "d", "u", "v"]⟩).features.length = 1 ∧
    (∀ row ∈ (featuresDataOf ⟨[[1, 2, 3, 4, 5]], ["a", "b", "c", "d", "e"]⟩
        ⟨[[9, 8, 7, 6, 0, 5]], ["a", "b", "c", "d", "u", "v"]⟩).features,
      row.length = (5 - 4) + (6 - 4)) ∧
    (featuresDataOf ⟨[[1, 2, 3, 4, 5]], ["a", "b", "c", "d", "e"]⟩
        ⟨[[9, 8, 7, 6, 0, 5]], ["a", "b", "c", "d", "u", "v"]⟩).meta =
      [[1, 2, 3, 4, 5]].map (fun r => r.take 4) ∧
    (featuresDataOf ⟨[[1, 2, 3, 4, 5]], ["a", "b", "c", "d", "e"]⟩
        ⟨[[9, 8, 7, 6, 0, 5]], ["a", "b", "c", "d", "u", "v"]⟩).meta.length = 1 ∧
    (∀ row ∈ (featuresDataOf ⟨[[1, 2, 3, 4, 5]], ["a", "b", "c", "d", "e"]⟩
        ⟨[[9, 8, 7, 6, 0, 5]], ["a", "b", "c", "d", "u", "v"]⟩).meta,
      row.length = 4) :=
  c8_loader_shape _ _ 1 5 6 rfl rfl (by decide) (by decide) (by decide) (by decide)

/-- Python's `list.index` as used in `features_names.index(feature)`
(predictor.py:162, 218): the index of the first occurrence of `x` in `l`;
raises `ValueError` when `x` is absent. -/
def pyListIndex (l : List String) (x : String) : Except PyError Nat :=
  match l with
  | [] => .error .valueError
  | y :: ys => if y = x then .ok 0 else (pyListIndex ys x).map (· + 1)

/-- The offset computation `features_names.index(feature) - 4` of
predictor.py:162 (and 218), on Python integers. -/
def signalOffset (features_names : List String) (feature : String) :
    Except PyError ℤ :=
  (pyListIndex features_names feature).map (fun i => (i : ℤ) - 4)

theorem pyListIndex_of_not_mem {l : List String} {x : String} (h : x ∉ l) :
    pyListIndex l x = .error .valueError := by
  induction l with
  | nil => rfl
  | cons y ys ih =>
      have hyx : ¬ y = x := fun he => h (by simp [he])
      have hxs : x ∉ ys := fun hm => h (by simp [hm])
      simp [pyListIndex, hyx, ih hxs, Except.map]

theorem pyListIndex_of_mem {l : List String} {x : String} (h : x ∈ l) :
    pyListIndex l x = .ok (l.indexOf x) := by
  induction l with
  | nil => simp at h
  | cons y ys ih =>
      by_cases hyx : y = x
      · simp [pyListIndex, hyx, List.indexOf_cons]
      · have hxs : x ∈ ys := by
          rcases List.mem_cons.mp h with h' | h'
          · exact absurd h'.symm hyx
          · exact h'
        have hbeq : (y == x) = false := by simpa using hyx
        simp [pyListIndex, hyx, ih hxs, List.indexOf_cons, hbeq, Except.map]

/-- C6 counterexample: looking up an absent feature name fails with
`ValueError` (the exception of Python's `list.index`), not with
`LookupError` as claimed. -/
theorem c6_counterexample_valueerror_not_lookuperror :
    signalOffset ["acquisition_date"] "missing_feature" =
      Except.error PyError.valueError ∧
    PyError.valueError ≠ PyError.lookupError :=
  ⟨rfl, by decide⟩

/-- C6 amended: for a declared signal-feature name absent from the combined
column-name sequence the offset computation fails with `ValueError` (not
`LookupError`); for a present name it succeeds with the name's first index in
the sequence minus the metadata-column count 4. -/
theorem c6_offset_lookup (names : List String) (f : String) :
    (f ∉ names → signalOffset names f = .error .valueError) ∧
    (f ∈ names → signalOffset names f = .ok ((names.indexOf f : ℤ) - 4)) := by
  constructor
  · intro h
    simp [signalOffset, pyListIndex_of_not_mem h, Except.map]
  · intro h
    simp [signalOffset, pyListIndex_of_mem h, Except.map]

theorem c6_offset_lookup_witness :
    signalOffset ["a", "b"] "c" = .error .valueError ∧
    signalOffset ["a", "b"] "b" = .ok ((List.indexOf "b" ["a", "b"] : ℤ) - 4) :=
  ⟨(c6_offset_lookup ["a", "b"] "c").1 (by decide),
   (c6_offset_lookup ["a", "b"] "b").2 (by decide)⟩

/-- NumPy column-indexing semantics for `features[:, j]` with a possibly
negative Python integer `j` (predictor.py:163, 219, via `get_features_data`'s
matrix of predictor.py:29-31): a negative index counts from the end of the
`ncols` columns; an out-of-range index raises `IndexError`. -/
def pyColIndex (ncols : Nat) (j : ℤ) : Except PyError Nat :=
  if 0 ≤ j then
    if j < (ncols : ℤ) then .ok j.toNat else .error .indexError
  else
    if 0 ≤ j + (ncols : ℤ) then .ok (j + (ncols : ℤ)).toNat
    else .error .indexError

/-- Extraction of one column of the row-major feature matrix at Python index
`j` (predictor.py:163): resolve the index with NumPy semantics, then read
that position in every row. -/
def extractCol (rows : List (List ℚ)) (ncols : Nat) (j : ℤ) :
    Except PyError (List ℚ) :=
  (pyColIndex ncols j).map (fun k => rows.map (fun r => r.getD k 0))

/-- C10: when a declared signal-feature name occurs among the first four
(metadata) entries of the combined column-name sequence, at index `i < 4`,
the computed offset `i - 4` is negative, and column extraction on a feature
matrix with at least 4 columns succeeds without raising, selecting the
column `ncols - (4 - i)` counted from the end — nothing guards against the
negative offset. -/
theorem c10_negative_offset_selects_from_end
    (names : List String) (f : String) (i : Nat)
    (rows : List (List ℚ)) (ncols : Nat)
    (hfind : pyListIndex names f = .ok i) (hi : i < 4) (hn : 4 ≤ ncols) :
    signalOffset names f = .ok ((i : ℤ) - 4) ∧
    (i : ℤ) - 4 < 0 ∧
    extractCol rows ncols ((i : ℤ) - 4) =
      .ok (rows.map (fun r => r.getD (ncols - (4 - i)) 0)) := by
  have hneg : ¬ (0 ≤ (i : ℤ) - 4) := by omega
  have hpos : 0 ≤ (i : ℤ) - 4 + (ncols : ℤ) := by omega
  have htn : ((i : ℤ) - 4 + (ncols : ℤ)).toNat = ncols - (4 - i) := by omega
  refine ⟨?_, by omega, ?_⟩
  · simp [signalOffset, hfind, Except.map]
  · simp [extractCol, pyColIndex, hneg, hpos, htn, Except.map]

theorem c10_negative_offset_selects_from_end_witness :
    signalOffset ["a", "b", "c", "d", "e"] "b" = .ok ((1 : ℤ) - 4) ∧
    (1 : ℤ) - 4 < 0 ∧
    extractCol [[10, 20, 30, 40, 50]] 5 ((1 : ℤ) - 4) =
      .ok ([[10, 20, 30, 40, 50]].map (fun r => r.getD (5 - (4 - 1)) 0)) := by
  have h := c10_negative_offset_selects_from_end ["a", "b", "c", "d", "e"] "b" 1
    [[10, 20, 30, 40, 50]] 5 (by rfl) (by decide) (by decide)
  exact_mod_cast h

/-- Code-point lexicographic comparison of character lists, the order used by
Python's `sorted` on strings. -/
def charListLtB : List Char → List Char → Bool
  | [], [] => false
  | [], _ :: _ => true
  | _ :: _, [] => false
  | a :: as, b :: bs =>
      if a.val < b.val then true
      else if b.val < a.val then false
      else charListLtB as bs

/-- Python's `<` on strings: lexicographic on code points. -/
def strLtB (a b : String) : Bool := charListLtB a.data b.data

/-- Insert a string into an ascending-sorted list, keeping it sorted. -/
def insertStr (x : String) : List String → List String
  | [] => [x]
  | y :: ys => if strLtB x y then x :: y :: ys else y :: insertStr x ys

/-- Ascending insertion sort on strings (extensionally Python's `sorted`). -/
def sortStr : List String → List String
  | [] => []
  | x :: xs => insertStr x (sortStr xs)

/-- Insertion order of the `models` dict keys (predictor.py:38-44). -/
def modelsKeys : List String :=
  ["elastic", "lasso", "ridge", "bayes_ridge", "lars"]

/-- `models_names = sorted(list(models.keys()))` (predictor.py:170). -/
def models_names : List String := sortStr modelsKeys

/-- Insertion order of the `pipelines` dict keys (predictor.py:100-112). -/
def pipelinesKeys : List String :=
  ["min_max_perc", "standard_perc", "robust_perc",
   "min_max_kbest", "standard_kbest", "robust_kbest",
   "min_max", "standard", "robust"]

/-- `pipe_names = sorted(list(pipelines.keys()))` (predictor.py:226). -/
def pipe_names : List String := sortStr pipelinesKeys

/-- The nested results list built by the search loop (predictor.py:171-205,
227-259): one inner list per signal feature (outer loop, declared order),
one entry per candidate (inner loop, sorted candidate names), where
`score f c` stands for the relative-error value computed for feature `f`
and candidate `c`. -/
def resultsRows (featNames candNames : List String)
    (score : String → String → ℚ) : List (List ℚ) :=
  featNames.map (fun f => candNames.map (fun c => score f c))

/-- The `.T` of a pandas DataFrame whose column axis has `ncols` labels,
acting on the row-major cell lists: column `j` of the input becomes row `j`
of the output. -/
def dfT (ncols : Nat) (m : List (List ℚ)) : List (List ℚ) :=
  (List.range ncols).map (fun j => m.map (fun row => row.getD j 0))

/-- One CSV write as performed by `DataFrame.to_csv`: target path, row
labels (the index), column labels, and row-major cells. -/
structure CsvWrite where
  path : String
  rowLabels : List String
  colLabels : List String
  cells : List (List ℚ)

/-- The final aggregation and write of `run_different_models`
(predictor.py:207-208):
`pandas.DataFrame(results, columns=models_names, index=signal_features_names).T`
written to `save_to + 'grid_search_results.csv'`. -/
def run_different_models_write (save_to : String)
    (signal_features_names : List String)
    (score : String → String → ℚ) : CsvWrite where
  path := save_to ++ "grid_search_results.csv"
  rowLabels := models_names
  colLabels := signal_features_names
  cells := dfT models_names.length
    (resultsRows signal_features_names models_names score)

/-- The final aggregation and write of `run_different_pipelines`
(predictor.py:261-262), analogous with the pipeline names and the filename
`grid_search_pipelines_results.csv`. -/
def run_different_pipelines_write (save_to : String)
    (signal_features_names : List String)
    (score : String → String → ℚ) : CsvWrite where
  path := save_to ++ "grid_search_pipelines_results.csv"
  rowLabels := pipe_names
  colLabels := signal_features_names
  cells := dfT pipe_names.length
    (resultsRows signal_features_names pipe_names score)

/-- A flat file system mapping paths to written tables; `DataFrame.to_csv`
creates or overwrites the file at its path, leaving other paths alone. -/
def writeCsv (fs : String → Option CsvWrite) (w : CsvWrite) :
    String → Option CsvWrite :=
  fun p => if p = w.path then some w else fs p

theorem dfT_getD (nc : Nat) (m : List (List ℚ)) (j : Nat) (hj : j < nc) :
    (dfT nc m).getD j [] = m.map (fun row => row.getD j 0) := by
  have hlen : j < (dfT nc m).length := by simpa [dfT] using hj
  rw [List.getD_eq_getElem _ _ hlen]
  simp [dfT]

theorem getD_map_rat (g : String → ℚ) (cn : List String) (j : Nat)
    (hj : j < cn.length) :
    (cn.map g).getD j 0 = g (cn.getD j "") := by
  rw [List.getD_eq_getElem _ _ (by simpa using hj), List.getD_eq_getElem _ _ hj]
  simp

theorem transposed_cell (fn cn : List String) (sc : String → String → ℚ)
    (i j : Nat) (hi : i < fn.length) (hj : j < cn.length) :
    ((dfT cn.length (resultsRows fn cn sc)).getD j []).getD i 0 =
      sc (fn.getD i "") (cn.getD j "") := by
  rw [dfT_getD _ _ _ hj]
  have hlen : i < ((resultsRows fn cn sc).map (fun row => row.getD j 0)).length := by
    simpa [resultsRows] using hi
  rw [List.getD_eq_getElem _ _ hlen, List.getD_eq_getElem _ _ hi]
  simp only [List.getElem_map, resultsRows]
  exact (by simpa using getD_map_rat (sc (fn[i])) cn j hj)

/-- C9: the aggregator writes, once at the end, a table whose rows are the
candidate names sorted lexicographically (`sorted(list(models.keys()))`,
resp. `sorted(list(pipelines.keys()))`), whose columns are the signal-feature
names in declared order, whose (candidate `j`, feature `i`) cell is the score
recorded for (feature `i`, candidate `j`) — the per-feature rows are
transposed — at the path `save_to` concatenated with the fixed mode-specific
filename, overwriting whatever the file system previously held there. -/
theorem c9_aggregator_transposed_write (save_to : String)
    (signal_features_names : List String) (score : String → String → ℚ)
    (i j : Nat) (hi : i < signal_features_names.length)
    (hj : j < models_names.length) :
    models_names = sortStr modelsKeys ∧
    models_names = ["bayes_ridge", "elastic", "lars", "lasso", "ridge"] ∧
    pipe_names = ["min_max", "min_max_kbest", "min_max_perc",
      "robust", "robust_kbest", "robust_perc",
      "standard", "standard_kbest", "standard_perc"] ∧
    (run_different_models_write save_to signal_features_names score).path =
      save_to ++ "grid_search_results.csv" ∧
    (run_different_pipelines_write save_to signal_features_names score).path =
      save_to ++ "grid_search_pipelines_results.csv" ∧
    (run_different_models_write save_to signal_features_names score).rowLabels =
      models_names ∧
    (run_different_models_write save_to signal_features_names score).colLabels =
      signal_features_names ∧
    (run_different_models_write save_to signal_features_names score).cells.length =
      models_names.length ∧
    ((run_different_models_write save_to signal_features_names score).cells.getD j
        []).getD i 0 =
      score (signal_features_names.getD i "") (models_names.getD j "") ∧
    (∀ fs : String → Option CsvWrite,
      writeCsv fs (run_different_models_write save_to signal_features_names score)
          ((run_different_models_write save_to signal_features_names score).path) =
        some (run_different_models_write save_to signal_features_names score)) := by
  refine ⟨rfl, by decide, by decide, rfl, rfl, rfl, rfl, by simp [run_different_models_write, dfT], ?_, ?_⟩
  · exact transposed_cell signal_features_names models_names score i j hi hj
  · intro fs
    simp [writeCsv]

theorem c9_aggregator_transposed_write_witness :
    models_names = sortStr modelsKeys ∧
    models_names = ["bayes_ridge", "elastic", "lars", "lasso", "ridge"] ∧
    pipe_names = ["min_max", "min_max_kbest", "min_max_perc",
      "robust", "robust_kbest", "robust_perc",
      "standard", "standard_kbest", "standard_perc"] ∧
    (run_different_models_write "res/" ["f1"] (fun _ _ => 0)).path =
      "res/" ++ "grid_search_results.csv" ∧
    (run_different_pipelines_write "res/" ["f1"] (fun _ _ => 0)).path =
      "res/" ++ "grid_search_pipelines_results.csv" ∧
    (run_different_models_write "res/" ["f1"] (fun _ _ => 0)).rowLabels =
      models_names ∧
    (run_different_models_write "res/" ["f1"] (fun _ _ => 0)).colLabels =
      ["f1"] ∧
    (run_different_models_write "res/" ["f1"] (fun _ _ => 0)).cells.length =
      models_names.length ∧
    ((run_different_models_write "res/" ["f1"] (fun _ _ => 0)).cells.getD 0
        []).getD 0 0 = (0 : ℚ) ∧
    (∀ fs : String → Option CsvWrite,
      writeCsv fs (run_different_models_write "res/" ["f1"] (fun _ _ => 0))
          ((run_different_models_write "res/" ["f1"] (fun _ _ => 0)).path) =
        some (run_different_models_write "res/" ["f1"] (fun _ _ => 0))) :=
  c9_aggregator_transposed_write "res/" ["f1"] (fun _ _ => 0) 0 0
    (by decide) (by decide)

end QCPredictor
